import Mathlib

/-!
Verification of the iio-fifo-viewer binary record decoder
(src/iio-fifo-viewer.py).

The development shallowly embeds the decoder core of the script:

* `pyFind`, `pyIndex`, `pySlice` model Python 2 `str.find` and slicing,
  which `type_to_unpack` uses on the scan-element type string;
* `type_to_unpack` embeds the function of the same name (lines 31-48);
* `align` embeds the helper of the same name (lines 50-53);
* `IioChannel` models one resolved channel: `name`, `index`, the raw
  `typ` string, `offset` and `scale` are the values delivered by the
  sysfs descriptor-resolution step (lines 64-94), with `index` an
  integer and `offset`/`scale` rationals per the resolution contract;
* `sortChannels` models Python's stable ascending sort driven by the
  index-only `IioChannel.__lt__` comparison (lines 96-97, line 122);
* `unpackFmt` models `struct.unpack` restricted to the format strings
  `type_to_unpack` produces (a single integer field with an explicit
  byte-order prefix);
* `decorateFrom`/`decorate` embed `IioInfo.decorate` (lines 117-133),
  with `Option` modelling the `struct.error` escape;
* `get_chunk_size` embeds `IioInfo.get_chunk_size` (lines 135-137);
* `planFrom`/`planLayout` record the byte spans realized by the cursor
  walk of `decorate` (the same `byte_start`/`byte_end` arithmetic).
-/

/-- pyFind models Python `s.find(c)`: the first index of `c` in `s`,
or `-1` when `c` does not occur. -/
def pyFind (l : List Char) (c : Char) : Int :=
  match l.findIdx? (fun x => x = c) with
  | some i => (i : Int)
  | none => -1

/-- pyIndex resolves one Python slice endpoint against a length `n`:
negative endpoints count from the end, and endpoints are clamped
to `[0, n]`. -/
def pyIndex (n : Nat) (i : Int) : Nat :=
  if i < 0 then (max ((n : Int) + i) 0).toNat else min i.toNat n

/-- pySlice models Python `l[a:b]` (step 1): both endpoints are
resolved by `pyIndex` and the slice is empty when they cross. -/
def pySlice (l : List α) (a b : Int) : List α :=
  let lo := pyIndex l.length a
  let hi := pyIndex l.length b
  (l.drop lo).take (hi - lo)

/-- inttypes is the lookup table of `type_to_unpack` (lines 35-45):
width token to (struct char, byte length), defaulting to the pad
entry `("x", 0)` exactly as `dict.get(valtyp, ("x", 0))` does. -/
def inttypes (valtyp : String) : String × Nat :=
  match valtyp with
  | "0" => ("x", 0)
  | "s8" => ("b", 1)
  | "u8" => ("B", 1)
  | "s16" => ("h", 2)
  | "u16" => ("H", 2)
  | "s32" => ("i", 4)
  | "u32" => ("I", 4)
  | "s64" => ("q", 8)
  | "u64" => ("Q", 8)
  | _ => ("x", 0)

/-- valtypOf is the token extraction of line 34:
`typ[typ.find(":")+1 : typ.find("/")]` with Python find/slice
semantics (find yields -1 when absent; a -1 slice end drops the
last character). -/
def valtypOf (typ : String) : String :=
  String.mk (pySlice typ.data (pyFind typ.data ':' + 1) (pyFind typ.data '/'))

/-- type_to_unpack embeds the source function of the same name
(lines 31-48): endianness from the `be` prefix check, width token
looked up in `inttypes`, returning the struct format string and the
byte length. -/
def type_to_unpack (typ : String) : String × Nat :=
  let ret := if pySlice typ.data 0 2 = ['b', 'e'] then ">" else "<"
  let cl := inttypes (valtypOf typ)
  (ret ++ cl.1, cl.2)

/-- align embeds the source helper (lines 50-53): round `value` up to
the next multiple of `alignment` using `divmod`. -/
def align (value alignment : Nat) : Nat :=
  let floor := value / alignment
  let remainder := value % alignment
  (floor + (if remainder > 0 then 1 else 0)) * alignment

/-- TIMESTAMP_ALIGNMENT is the constant of line 14, `64/8` with
Python 2 integer division. -/
def TIMESTAMP_ALIGNMENT : Nat := 64 / 8

/-- IioChannel models one resolved channel of `IioInfo.channel`: the
fields hold the values the sysfs resolution step (lines 64-94)
delivers, with `index` an integer and `offset`/`scale` rationals
(defaults 0 and 1 when absent) per the descriptor contract. -/
structure IioChannel where
  name : String
  index : Int
  typ : String
  offset : Rat
  scale : Rat
deriving DecidableEq, Repr

/-- typ_str is the stored struct format string of line 73. -/
def IioChannel.typ_str (c : IioChannel) : String :=
  (type_to_unpack c.typ).1

/-- typ_len is the stored byte length of line 73. -/
def IioChannel.typ_len (c : IioChannel) : Nat :=
  (type_to_unpack c.typ).2

/-- chanLE is the nonstrict form of `IioChannel.__lt__` (lines 96-97),
which compares channels by their `index` field only. -/
def chanLE (a b : IioChannel) : Prop := a.index ≤ b.index

instance : DecidableRel chanLE := fun a b => Int.decLe a.index b.index

instance : IsTotal IioChannel chanLE := ⟨fun a b => Int.le_total a.index b.index⟩

instance : IsTrans IioChannel chanLE := ⟨fun _ _ _ h1 h2 => le_trans h1 h2⟩

/-- sortChannels models `sorted(self.channel)` (line 122): Python's
sort is stable and ascending under `__lt__`, which coincides with the
stable insertion sort under the index comparison `chanLE`. -/
def sortChannels (chans : List IioChannel) : List IioChannel :=
  List.insertionSort chanLE chans

/-- leValue is the unsigned little-endian integer of a byte list. -/
def leValue : List Nat → Nat
  | [] => 0
  | b :: rest => b + 256 * leValue rest

/-- beValue is the unsigned big-endian integer of a byte list. -/
def beValue (l : List Nat) : Nat :=
  l.foldl (fun acc b => acc * 256 + b) 0

/-- toSigned reinterprets a `w`-byte unsigned value as two's
complement signed. -/
def toSigned (w : Nat) (v : Nat) : Int :=
  if v < 2 ^ (8 * w - 1) then (v : Int) else (v : Int) - 2 ^ (8 * w)

/-- unpackFmt models `struct.unpack(fmt, bytes)[0]` for the format
strings `type_to_unpack` produces: one byte-order character followed
by one integer type character. `struct.error` (wrong buffer length,
or a format with no value to index) is `none`. -/
def unpackFmt (fmt : String) (bytes : List Nat) : Option Int :=
  match fmt.data with
  | [e, c] =>
    let sw : Option (Bool × Nat) :=
      match c with
      | 'b' => some (true, 1)
      | 'B' => some (false, 1)
      | 'h' => some (true, 2)
      | 'H' => some (false, 2)
      | 'i' => some (true, 4)
      | 'I' => some (false, 4)
      | 'q' => some (true, 8)
      | 'Q' => some (false, 8)
      | _ => none
    sw.bind (fun p =>
      if bytes.length = p.2 then
        let raw := if e = '>' then beValue bytes else leValue bytes
        some (if p.1 then toSigned p.2 raw else (raw : Int))
      else none)
  | _ => none

/-- pySliceNat is `pySlice` at nonnegative indices, the form
`decorate` uses for `data[byte_start:byte_end]` (both cursors are
nonnegative integers). -/
def pySliceNat (l : List α) (a b : Nat) : List α :=
  pySlice l (a : Int) (b : Int)

/-- decorateFrom is the loop body of `IioInfo.decorate` (lines
119-132) over an already sorted channel list, carrying the byte
cursor (at each iteration boundary `byte_start == byte_end`, so one
`Nat` suffices): the cursor is aligned before a channel named
`"timestamp"`, a zero-width channel emits `(name, 0)` and the final
`byte_start = byte_end` restores the pre-alignment cursor, and a
nonzero-width channel unpacks `data[byte_start:byte_end]`, scales it,
and advances the cursor. A `struct.error` aborts the whole call. -/
def decorateFrom (cur : Nat) (chans : List IioChannel) (data : List Nat) :
    Option (List (String × Rat)) :=
  match chans with
  | [] => some []
  | c :: rest =>
    let bs := if c.name = "timestamp" then align cur TIMESTAMP_ALIGNMENT else cur
    if c.typ_len = 0 then
      (decorateFrom cur rest data).map (fun l => (c.name, (0 : Rat)) :: l)
    else
      let be := bs + c.typ_len
      match unpackFmt c.typ_str (pySliceNat data bs be) with
      | none => none
      | some rawval =>
        (decorateFrom be rest data).map
          (fun l => (c.name, ((rawval : Rat) + c.offset) * c.scale) :: l)

/-- decorate embeds `IioInfo.decorate` (lines 117-133): walk the
channels sorted by index from cursor 0. -/
def decorate (chans : List IioChannel) (data : List Nat) :
    Option (List (String × Rat)) :=
  decorateFrom 0 (sortChannels chans) data

/-- get_chunk_size embeds `IioInfo.get_chunk_size` (lines 135-137):
the sum of the stored byte lengths, aligned to `TIMESTAMP_ALIGNMENT`.
Note the sum does not include the alignment gap the `decorate` walk
inserts before a nonzero-width `"timestamp"` channel. -/
def get_chunk_size (chans : List IioChannel) : Nat :=
  align ((chans.map IioChannel.typ_len).sum) TIMESTAMP_ALIGNMENT

/-- planFrom records the byte spans the `decorate` cursor walk
(lines 119-132) realizes for each channel of an already sorted list:
a nonzero-width channel occupies `[byte_start, byte_end)` and a
zero-width channel occupies the empty span at the incoming cursor
(its timestamp alignment, if any, is undone by the
`byte_start = byte_end` reset, and no bytes are read). -/
def planFrom (cur : Nat) (chans : List IioChannel) :
    List (IioChannel × Nat × Nat) :=
  match chans with
  | [] => []
  | c :: rest =>
    let bs := if c.name = "timestamp" then align cur TIMESTAMP_ALIGNMENT else cur
    if c.typ_len = 0 then
      (c, cur, cur) :: planFrom cur rest
    else
      (c, bs, bs + c.typ_len) :: planFrom (bs + c.typ_len) rest

/-- planLayout is the byte layout of a descriptor set: the spans of
the index-sorted channels starting at cursor 0, as `decorate`
realizes them. -/
def planLayout (chans : List IioChannel) : List (IioChannel × Nat × Nat) :=
  planFrom 0 (sortChannels chans)

/-- fitsFrom decides whether every nonzero-width channel's byte span,
as walked by `decorateFrom` from cursor `cur`, lies inside a record
of `n` bytes. -/
def fitsFrom (cur : Nat) (chans : List IioChannel) (n : Nat) : Bool :=
  match chans with
  | [] => true
  | c :: rest =>
    let bs := if c.name = "timestamp" then align cur TIMESTAMP_ALIGNMENT else cur
    if c.typ_len = 0 then
      fitsFrom cur rest n
    else
      decide (bs + c.typ_len ≤ n) && fitsFrom (bs + c.typ_len) rest n

/-- accelX is a two-byte signed little-endian channel at index 0, as
in the spec's P3 example. -/
def accelX : IioChannel := ⟨"accel_x", 0, "le:s16/16", 0, 1⟩

/-- tsChan is an eight-byte signed little-endian timestamp channel at
index 1, as in the spec's P3 example. -/
def tsChan : IioChannel := ⟨"timestamp", 1, "le:s64/64", 0, 1⟩

/-- gyroZ is a two-byte signed little-endian channel at index 2,
placed after the timestamp channel. -/
def gyroZ : IioChannel := ⟨"gyro_z", 2, "le:s16/16", 0, 1⟩

/-- uChan is a one-byte unsigned channel with offset 10 and scale 2,
as in the spec's P5 example. -/
def uChan : IioChannel := ⟨"chan_u8", 0, "le:u8/8", 10, 2⟩

/-- padChan is a channel whose type string is not in the vocabulary,
so it resolves to the zero-width placeholder. -/
def padChan : IioChannel := ⟨"pad", 0, "weird", 0, 1⟩

/-- tsPad is a channel named timestamp whose type string resolves to
the zero-width placeholder (width token 0). -/
def tsPad : IioChannel := ⟨"timestamp", 0, "le:0/64", 0, 1⟩

/-- decorateFrom_cons_zero: a zero-width channel emits `(name, 0)` and
leaves the cursor unchanged (the `byte_start = byte_end` reset undoes
any timestamp alignment applied earlier in the iteration). -/
theorem decorateFrom_cons_zero (cur : Nat) (c : IioChannel) (rest : List IioChannel)
    (data : List Nat) (h0 : c.typ_len = 0) :
    decorateFrom cur (c :: rest) data =
      (decorateFrom cur rest data).map (fun l => (c.name, (0 : Rat)) :: l) := by
  rw [decorateFrom]
  simp only [if_pos h0]

/-- decorateFrom_cons_some: a nonzero-width channel whose bytes unpack
to `r` emits the scaled value and advances the cursor past its span. -/
theorem decorateFrom_cons_some (cur : Nat) (c : IioChannel) (rest : List IioChannel)
    (data : List Nat) (bs : Nat) (r : Int)
    (hbs : bs = if c.name = "timestamp" then align cur TIMESTAMP_ALIGNMENT else cur)
    (h0 : c.typ_len ≠ 0)
    (hu : unpackFmt c.typ_str (pySliceNat data bs (bs + c.typ_len)) = some r) :
    decorateFrom cur (c :: rest) data =
      (decorateFrom (bs + c.typ_len) rest data).map
        (fun l => (c.name, ((r : Rat) + c.offset) * c.scale) :: l) := by
  rw [decorateFrom]
  simp only [← hbs, if_neg h0, hu]

/-- decorateFrom_cons_none: a failed unpack aborts the whole decode. -/
theorem decorateFrom_cons_none (cur : Nat) (c : IioChannel) (rest : List IioChannel)
    (data : List Nat) (bs : Nat)
    (hbs : bs = if c.name = "timestamp" then align cur TIMESTAMP_ALIGNMENT else cur)
    (h0 : c.typ_len ≠ 0)
    (hu : unpackFmt c.typ_str (pySliceNat data bs (bs + c.typ_len)) = none) :
    decorateFrom cur (c :: rest) data = none := by
  rw [decorateFrom]
  simp only [← hbs, if_neg h0, hu]

/-- isSome_ite_none: the one-sided option conditional is some exactly
when the condition holds. -/
theorem isSome_ite_none (c : Prop) [Decidable c] (v : Int) :
    (if c then some v else none).isSome = decide c := by
  split <;> simp_all

/-- inttypes_cases: the lookup table takes one of nine values. -/
theorem inttypes_cases (v : String) :
    inttypes v = ("x", 0) ∨ inttypes v = ("b", 1) ∨ inttypes v = ("B", 1) ∨
    inttypes v = ("h", 2) ∨ inttypes v = ("H", 2) ∨ inttypes v = ("i", 4) ∨
    inttypes v = ("I", 4) ∨ inttypes v = ("q", 8) ∨ inttypes v = ("Q", 8) := by
  unfold inttypes
  split <;> simp

/-- unpack_isSome_len: for a nonzero-width channel, unpacking its
stored format string succeeds exactly when the buffer length equals
the stored byte length (the `struct.error` condition). -/
theorem unpack_isSome_len (c : IioChannel) (h0 : c.typ_len ≠ 0) (bytes : List Nat) :
    (unpackFmt c.typ_str bytes).isSome = decide (bytes.length = c.typ_len) := by
  have hc := inttypes_cases (valtypOf c.typ)
  simp only [IioChannel.typ_str, IioChannel.typ_len, type_to_unpack] at h0 ⊢
  rcases hc with h|h|h|h|h|h|h|h|h <;> simp only [h] at h0 ⊢ <;>
    first
      | exact absurd rfl h0
      | (by_cases hP : pySlice c.typ.data 0 2 = ['b', 'e'] <;>
          simp only [hP, if_true, if_false] <;>
          simp only [unpackFmt, String.data_append,
            show (">" : String).data = ['>'] from rfl,
            show ("<" : String).data = ['<'] from rfl,
            show ("b" : String).data = ['b'] from rfl,
            show ("B" : String).data = ['B'] from rfl,
            show ("h" : String).data = ['h'] from rfl,
            show ("H" : String).data = ['H'] from rfl,
            show ("i" : String).data = ['i'] from rfl,
            show ("I" : String).data = ['I'] from rfl,
            show ("q" : String).data = ['q'] from rfl,
            show ("Q" : String).data = ['Q'] from rfl,
            List.cons_append, List.nil_append, Option.some_bind, if_true,
            isSome_ite_none])

/-- pySliceNat_eq: at nonnegative indices a Python slice is
drop-then-take. -/
theorem pySliceNat_eq (l : List α) (a b : Nat) :
    pySliceNat l a b = (l.drop a).take (b - a) := by
  unfold pySliceNat pySlice pyIndex
  simp only [Int.not_lt.mpr (Int.natCast_nonneg a), Int.not_lt.mpr (Int.natCast_nonneg b),
    if_neg, Int.toNat_natCast, if_false]
  rcases le_total a l.length with ha | ha
  · rw [min_eq_left ha]
    rcases le_total b l.length with hb | hb
    · rw [min_eq_left hb]
    · rw [min_eq_right hb, List.take_eq_take]
      simp [List.length_drop]
      omega
  · rw [min_eq_right ha, List.drop_length, List.drop_eq_nil_of_le ha]
    simp

/-- pySliceNat_length: length of a nonnegative-index Python slice. -/
theorem pySliceNat_length (l : List α) (a b : Nat) :
    (pySliceNat l a b).length = min (b - a) (l.length - a) := by
  rw [pySliceNat_eq, List.length_take, List.length_drop]

/-- fitsFrom_cons_zero: a zero-width channel imposes no span bound. -/
theorem fitsFrom_cons_zero (cur : Nat) (c : IioChannel) (rest : List IioChannel)
    (n : Nat) (h0 : c.typ_len = 0) :
    fitsFrom cur (c :: rest) n = fitsFrom cur rest n := by
  rw [fitsFrom]
  simp only [if_pos h0]

/-- fitsFrom_cons_pos: a nonzero-width channel requires its span to
end inside the record. -/
theorem fitsFrom_cons_pos (cur : Nat) (c : IioChannel) (rest : List IioChannel)
    (n : Nat) (bs : Nat)
    (hbs : bs = if c.name = "timestamp" then align cur TIMESTAMP_ALIGNMENT else cur)
    (h0 : c.typ_len ≠ 0) :
    fitsFrom cur (c :: rest) n =
      (decide (bs + c.typ_len ≤ n) && fitsFrom (bs + c.typ_len) rest n) := by
  rw [fitsFrom]
  simp only [← hbs, if_neg h0]

/-- decorateFrom_isSome: the decode walk succeeds exactly when every
nonzero-width channel's byte span lies inside the record; the record
length is never compared with the chunk size directly. -/
theorem decorateFrom_isSome (cur : Nat) (chans : List IioChannel) (data : List Nat) :
    (decorateFrom cur chans data).isSome = fitsFrom cur chans data.length := by
  induction chans generalizing cur with
  | nil => rfl
  | cons c rest ih =>
    by_cases h0 : c.typ_len = 0
    · rw [decorateFrom_cons_zero cur c rest data h0, fitsFrom_cons_zero cur c rest data.length h0,
        Option.isSome_map']
      exact ih cur
    · rw [fitsFrom_cons_pos cur c rest data.length
        (if c.name = "timestamp" then align cur TIMESTAMP_ALIGNMENT else cur) rfl h0]
      have hiff : (pySliceNat data (if c.name = "timestamp" then align cur TIMESTAMP_ALIGNMENT else cur)
          ((if c.name = "timestamp" then align cur TIMESTAMP_ALIGNMENT else cur) + c.typ_len)).length = c.typ_len ↔
          (if c.name = "timestamp" then align cur TIMESTAMP_ALIGNMENT else cur) + c.typ_len ≤ data.length := by
        rw [pySliceNat_length]
        omega
      have hsome := unpack_isSome_len c h0 (pySliceNat data
        (if c.name = "timestamp" then align cur TIMESTAMP_ALIGNMENT else cur)
        ((if c.name = "timestamp" then align cur TIMESTAMP_ALIGNMENT else cur) + c.typ_len))
      rcases hu : unpackFmt c.typ_str (pySliceNat data
          (if c.name = "timestamp" then align cur TIMESTAMP_ALIGNMENT else cur)
          ((if c.name = "timestamp" then align cur TIMESTAMP_ALIGNMENT else cur) + c.typ_len)) with _ | r
      · rw [hu] at hsome
        rw [decorateFrom_cons_none cur c rest data
          (if c.name = "timestamp" then align cur TIMESTAMP_ALIGNMENT else cur) rfl h0 hu]
        simp only [Option.isSome_none] at hsome ⊢
        have hnot : ¬ ((if c.name = "timestamp" then align cur TIMESTAMP_ALIGNMENT else cur) + c.typ_len ≤ data.length) := by
          intro hle
          rw [hiff.mpr hle] at hsome
          simp at hsome
        simp [hnot]
      · rw [hu] at hsome
        rw [decorateFrom_cons_some cur c rest data
          (if c.name = "timestamp" then align cur TIMESTAMP_ALIGNMENT else cur) r rfl h0 hu]
        simp only [Option.isSome_some] at hsome
        have hle : (if c.name = "timestamp" then align cur TIMESTAMP_ALIGNMENT else cur) + c.typ_len ≤ data.length :=
          hiff.mp (of_decide_eq_true hsome.symm)
        simp only [Option.isSome_map', decide_eq_true hle, Bool.true_and]
        exact ih _

/-- filter_orderedInsert: inserting a channel into a list passes only
channels of strictly smaller index, so among channels of a fixed
index the inserted one lands first. -/
theorem filter_orderedInsert (i : Int) (x : IioChannel) (l : List IioChannel) :
    (List.orderedInsert chanLE x l).filter (fun c => c.index == i) =
      if x.index == i then x :: l.filter (fun c => c.index == i)
      else l.filter (fun c => c.index == i) := by
  induction l with
  | nil =>
    rw [List.orderedInsert_nil, List.filter]
    by_cases hx : x.index = i <;> simp [hx]
  | cons d rest ih =>
    rw [List.orderedInsert]
    by_cases hxd : chanLE x d
    · rw [if_pos hxd]
      by_cases hx : x.index = i <;> simp [List.filter_cons, hx]
    · rw [if_neg hxd]
      have hdlt : d.index < x.index := lt_of_not_le hxd
      by_cases hx : x.index = i
      · have hd : ¬ (d.index = i) := by omega
        simp [List.filter_cons, hx, hd, ih]
      · by_cases hd : d.index = i <;> simp [List.filter_cons, hx, hd, ih]

/-- filter_sortChannels: stability of the channel sort, stated as
preservation of the subsequence of channels with any fixed index. -/
theorem filter_sortChannels (i : Int) (chans : List IioChannel) :
    (sortChannels chans).filter (fun c => c.index == i) =
      chans.filter (fun c => c.index == i) := by
  induction chans with
  | nil => rfl
  | cons c rest ih =>
    unfold sortChannels at ih ⊢
    rw [List.insertionSort, filter_orderedInsert, List.filter_cons]
    by_cases hx : c.index = i <;> simp [hx, ih]

/-- planFrom_cons_zero: a zero-width channel occupies the empty span
at the incoming cursor and the cursor does not move. -/
theorem planFrom_cons_zero (cur : Nat) (c : IioChannel) (rest : List IioChannel)
    (h0 : c.typ_len = 0) :
    planFrom cur (c :: rest) = (c, cur, cur) :: planFrom cur rest := by
  rw [planFrom]
  simp only [if_pos h0]

/-- planFrom_cons_pos: a nonzero-width channel occupies the span
starting at the (possibly aligned) cursor. -/
theorem planFrom_cons_pos (cur : Nat) (c : IioChannel) (rest : List IioChannel)
    (bs : Nat)
    (hbs : bs = if c.name = "timestamp" then align cur TIMESTAMP_ALIGNMENT else cur)
    (h0 : c.typ_len ≠ 0) :
    planFrom cur (c :: rest) = (c, bs, bs + c.typ_len) :: planFrom (bs + c.typ_len) rest := by
  rw [planFrom]
  simp only [← hbs, if_neg h0]

/-- align_mod: the aligned value is a multiple of the alignment. -/
theorem align_mod (x a : Nat) : align x a % a = 0 := by
  unfold align
  exact Nat.mul_mod_left _ _

/-- decorateFrom_some_names: a successful decode walk emits the
channel names in walk order, one per channel. -/
theorem decorateFrom_some_names (cur : Nat) (chans : List IioChannel) (data : List Nat)
    (vs : List (String × Rat)) (h : decorateFrom cur chans data = some vs) :
    vs.map Prod.fst = chans.map IioChannel.name := by
  induction chans generalizing cur vs with
  | nil =>
    rw [decorateFrom] at h
    cases h
    rfl
  | cons c rest ih =>
    by_cases h0 : c.typ_len = 0
    · rw [decorateFrom_cons_zero cur c rest data h0] at h
      rcases hrest : decorateFrom cur rest data with _ | l
      · rw [hrest] at h
        simp at h
      · rw [hrest] at h
        simp only [Option.map_some'] at h
        cases h
        simp only [List.map_cons]
        rw [ih cur l hrest]
    · rcases hu : unpackFmt c.typ_str (pySliceNat data
          (if c.name = "timestamp" then align cur TIMESTAMP_ALIGNMENT else cur)
          ((if c.name = "timestamp" then align cur TIMESTAMP_ALIGNMENT else cur) + c.typ_len)) with _ | r
      · rw [decorateFrom_cons_none cur c rest data _ rfl h0 hu] at h
        simp at h
      · rw [decorateFrom_cons_some cur c rest data _ r rfl h0 hu] at h
        rcases hrest : decorateFrom ((if c.name = "timestamp" then align cur TIMESTAMP_ALIGNMENT else cur) + c.typ_len) rest data with _ | l
        · rw [hrest] at h
          simp at h
        · rw [hrest] at h
          simp only [Option.map_some'] at h
          cases h
          simp only [List.map_cons]
          rw [ih _ l hrest]

/-- inttypes_default: a width token outside the vocabulary defaults
to the pad entry. -/
theorem inttypes_default (v : String)
    (h : v ∉ ["0", "s8", "u8", "s16", "u16", "s32", "u32", "s64", "u64"]) :
    inttypes v = ("x", 0) := by
  unfold inttypes
  split <;> simp_all

/-- C1: the claim states `totalSize` equals the aligned final cursor
of the timestamp-aligned walk (equivalently `align` of the width sum
with the alignment gap included). The code's `get_chunk_size` omits
the gap: on [accel_x@0, timestamp@1, gyro_z@2] it returns 16, while
the decode walk places gyro_z at [16, 18) (24 bytes once aligned),
and decoding a chunk of the code's own size fails, so the claim (and
the spec walk) and `get_chunk_size` disagree. -/
theorem claim_C1_chunk_size_bug :
    get_chunk_size [accelX, tsChan, gyroZ] = 16 ∧
    planLayout [accelX, tsChan, gyroZ] = [(accelX, 0, 2), (tsChan, 8, 16), (gyroZ, 16, 18)] ∧
    align 18 TIMESTAMP_ALIGNMENT = 24 ∧
    decorate [accelX, tsChan, gyroZ] (List.replicate 16 0) = none ∧
    (decorate [accelX, tsChan, gyroZ] (List.replicate 18 0)).isSome = true := by
  refine ⟨by decide, by decide, by decide, ?_, ?_⟩
  · have h16 : (decorate [accelX, tsChan, gyroZ] (List.replicate 16 0)).isSome = false := by
      rw [decorate, decorateFrom_isSome]
      decide
    rcases ho : decorate [accelX, tsChan, gyroZ] (List.replicate 16 0) with _ | v
    · rfl
    · rw [ho] at h16
      simp at h16
  · rw [decorate, decorateFrom_isSome]
    decide

/-- C2 counterexample: the claim says decode fails whenever the record
length differs from `totalSize`. A one-byte record for a layout whose
chunk size is 8 decodes successfully. -/
theorem claim_C2_counterexample :
    ([5] : List Nat).length ≠ get_chunk_size [uChan] ∧
    (decorate [uChan] [5]).isSome = true := by
  refine ⟨by decide, ?_⟩
  rw [decorate, decorateFrom_isSome]
  decide

/-- C2 amended: decode never compares the record length with
`totalSize`; it succeeds exactly when every nonzero-width channel's
byte span, walked with the timestamp alignment, lies inside the
record, whatever the record's length. -/
theorem claim_C2_amended (chans : List IioChannel) (data : List Nat) :
    (decorate chans data).isSome = fitsFrom 0 (sortChannels chans) data.length := by
  rw [decorate]
  exact decorateFrom_isSome 0 (sortChannels chans) data

/-- C3: a nonzero-width channel named timestamp is always placed at a
byte offset that is a multiple of 8, and the P3 example lays out as
accel_x at [0,2), gap [2,8), timestamp at [8,16), totalSize 16. -/
theorem claim_C3_timestamp_aligned :
    (∀ cur chans (c : IioChannel) (s e : Nat), (c, s, e) ∈ planFrom cur chans →
      c.name = "timestamp" → c.typ_len ≠ 0 → s % 8 = 0) ∧
    planLayout [accelX, tsChan] = [(accelX, 0, 2), (tsChan, 8, 16)] ∧
    get_chunk_size [accelX, tsChan] = 16 := by
  refine ⟨?_, by decide, by decide⟩
  intro cur chans
  induction chans generalizing cur with
  | nil =>
    intro c s e h
    rw [planFrom] at h
    simp at h
  | cons d rest ih =>
    intro c s e hmem hname hlen
    by_cases h0 : d.typ_len = 0
    · rw [planFrom_cons_zero cur d rest h0] at hmem
      rcases List.mem_cons.mp hmem with heq | htail
      · simp only [Prod.mk.injEq] at heq
        obtain ⟨rfl, rfl, rfl⟩ := heq
        exact absurd h0 hlen
      · exact ih cur c s e htail hname hlen
    · rw [planFrom_cons_pos cur d rest _ rfl h0] at hmem
      rcases List.mem_cons.mp hmem with heq | htail
      · simp only [Prod.mk.injEq] at heq
        obtain ⟨rfl, rfl, rfl⟩ := heq
        rw [if_pos hname]
        exact align_mod cur TIMESTAMP_ALIGNMENT
      · exact ih _ c s e htail hname hlen

/-- C3 witness: the timestamp channel of the P3 example is placed at
byte offset 8. -/
theorem claim_C3_witness :
    ((tsChan, 8, 16) ∈ planFrom 0 [accelX, tsChan] ∧
      tsChan.name = "timestamp" ∧ tsChan.typ_len ≠ 0) ∧
    (8 : Nat) % 8 = 0 :=
  ⟨⟨by decide, rfl, by decide⟩,
   claim_C3_timestamp_aligned.1 0 [accelX, tsChan] tsChan 8 16 (by decide) rfl (by decide)⟩

/-- C4: a nonzero-width channel decodes to `(raw + offset) * scale`
where raw is the integer unpacked from its byte span, and in
particular raw 5 with offset 10 and scale 2 yields 30. -/
theorem claim_C4_linear_scaling (cur : Nat) (c : IioChannel) (rest : List IioChannel)
    (data : List Nat) (bs : Nat) (r : Int)
    (hbs : bs = if c.name = "timestamp" then align cur TIMESTAMP_ALIGNMENT else cur)
    (h0 : c.typ_len ≠ 0)
    (hu : unpackFmt c.typ_str (pySliceNat data bs (bs + c.typ_len)) = some r) :
    decorateFrom cur (c :: rest) data =
      (decorateFrom (bs + c.typ_len) rest data).map
        (fun l => (c.name, ((r : Rat) + c.offset) * c.scale) :: l) ∧
    decorate [uChan] [5] = some [("chan_u8", 30)] := by
  refine ⟨decorateFrom_cons_some cur c rest data bs r hbs h0 hu, ?_⟩
  have hs : sortChannels [uChan] = [uChan] := by decide
  have hu5 : unpackFmt uChan.typ_str (pySliceNat [5] 0 (0 + uChan.typ_len)) = some 5 := by
    decide
  rw [decorate, hs, decorateFrom_cons_some 0 uChan [] [5] 0 5 (by decide) (by decide) hu5]
  norm_num [decorateFrom, uChan]

/-- C4 witness: the scaling law applied to the one-channel layout
[chan_u8] on the record [5]. -/
theorem claim_C4_witness :
    (uChan.typ_len ≠ 0 ∧
      unpackFmt uChan.typ_str (pySliceNat [5] 0 (0 + uChan.typ_len)) = some 5) ∧
    (decorateFrom 0 (uChan :: []) [5] =
      (decorateFrom (0 + uChan.typ_len) [] [5]).map
        (fun l => (uChan.name, (((5 : Int) : Rat) + uChan.offset) * uChan.scale) :: l) ∧
     decorate [uChan] [5] = some [("chan_u8", 30)]) :=
  ⟨⟨by decide, by decide⟩,
   claim_C4_linear_scaling 0 uChan [] [5] 0 5 (by decide) (by decide) (by decide)⟩

/-- C5: the type string of a little-endian signed 16-bit channel
parses to format `<h` width 2, and decoding bytes 0xFF 0xFF through
that channel yields -1. -/
theorem claim_C5_s16_le_decode :
    type_to_unpack "le:s16/16" = ("<h", 2) ∧
    decorate [accelX] [255, 255] = some [("accel_x", -1)] := by
  refine ⟨by decide, ?_⟩
  have hs : sortChannels [accelX] = [accelX] := by decide
  have hu : unpackFmt accelX.typ_str (pySliceNat [255, 255] 0 (0 + accelX.typ_len)) = some (-1) := by
    decide
  rw [decorate, hs, decorateFrom_cons_some 0 accelX [] [255, 255] 0 (-1) (by decide) (by decide) hu]
  norm_num [decorateFrom, accelX]

/-- C6: the type parser is total (its width is always one of 0, 1, 2,
4, 8) and every width token outside the vocabulary yields the
zero-width placeholder format. -/
theorem claim_C6_parser_total_lenient (typ : String) :
    ((type_to_unpack typ).2 = 0 ∨ (type_to_unpack typ).2 = 1 ∨ (type_to_unpack typ).2 = 2 ∨
      (type_to_unpack typ).2 = 4 ∨ (type_to_unpack typ).2 = 8) ∧
    (valtypOf typ ∉ ["0", "s8", "u8", "s16", "u16", "s32", "u32", "s64", "u64"] →
      (type_to_unpack typ).2 = 0 ∧
      ((type_to_unpack typ).1 = "<x" ∨ (type_to_unpack typ).1 = ">x")) := by
  constructor
  · have hc := inttypes_cases (valtypOf typ)
    simp only [type_to_unpack]
    rcases hc with h|h|h|h|h|h|h|h|h <;> simp [h]
  · intro h
    have hd := inttypes_default (valtypOf typ) h
    constructor
    · simp [type_to_unpack, hd]
    · have h1 : (type_to_unpack typ).1 =
          (if pySlice typ.data 0 2 = ['b', 'e'] then ">" else "<") ++ "x" := by
        simp [type_to_unpack, hd]
      rw [h1]
      by_cases hP : pySlice typ.data 0 2 = ['b', 'e']
      · right
        rw [if_pos hP]
        decide
      · left
        rw [if_neg hP]
        decide

/-- C6 witness: the malformed type string foo maps to the zero-width
placeholder. -/
theorem claim_C6_witness :
    valtypOf "foo" ∉ ["0", "s8", "u8", "s16", "u16", "s32", "u32", "s64", "u64"] ∧
    ((type_to_unpack "foo").2 = 0 ∧
      ((type_to_unpack "foo").1 = "<x" ∨ (type_to_unpack "foo").1 = ">x")) :=
  ⟨by decide, (claim_C6_parser_total_lenient "foo").2 (by decide)⟩

/-- C7: a zero-width channel emits `(name, 0)`, occupies the empty
span at the incoming cursor, consumes no input bytes, and the rest of
the walk continues from the same cursor as if it were absent. -/
theorem claim_C7_zero_width_passthrough (cur : Nat) (c : IioChannel)
    (rest : List IioChannel) (data : List Nat) (h0 : c.typ_len = 0) :
    decorateFrom cur (c :: rest) data =
      (decorateFrom cur rest data).map (fun l => (c.name, (0 : Rat)) :: l) ∧
    planFrom cur (c :: rest) = (c, cur, cur) :: planFrom cur rest :=
  ⟨decorateFrom_cons_zero cur c rest data h0, planFrom_cons_zero cur c rest h0⟩

/-- C7 witness: the zero-width channel pad on an empty record. -/
theorem claim_C7_witness :
    padChan.typ_len = 0 ∧
    (decorateFrom 0 (padChan :: []) [] =
      (decorateFrom 0 [] []).map (fun l => (padChan.name, (0 : Rat)) :: l) ∧
     planFrom 0 (padChan :: []) = (padChan, 0, 0) :: planFrom 0 []) :=
  ⟨by decide, claim_C7_zero_width_passthrough 0 padChan [] [] (by decide)⟩

/-- C8: a successful decode emits exactly one value per channel, with
the names in the index-sorted channel order (the sort is by index and
a permutation of the channel set); the alignment gap produces no
entry. -/
theorem claim_C8_output_order (chans : List IioChannel) (data : List Nat)
    (vs : List (String × Rat)) (h : decorate chans data = some vs) :
    vs.length = chans.length ∧
    vs.map Prod.fst = (sortChannels chans).map IioChannel.name ∧
    List.Sorted chanLE (sortChannels chans) ∧
    (sortChannels chans).Perm chans := by
  rw [decorate] at h
  have hnames := decorateFrom_some_names 0 (sortChannels chans) data vs h
  have hperm : (sortChannels chans).Perm chans := List.perm_insertionSort chanLE chans
  refine ⟨?_, hnames, List.sorted_insertionSort chanLE chans, hperm⟩
  have h1 := congrArg List.length hnames
  simp only [List.length_map] at h1
  rw [h1, hperm.length_eq]

/-- C8 witness: the one-channel layout [pad] decoding the empty
record. -/
theorem claim_C8_witness :
    decorate [padChan] [] = some [("pad", 0)] ∧
    ([(("pad" : String), (0 : Rat))].length = [padChan].length ∧
     [(("pad" : String), (0 : Rat))].map Prod.fst = (sortChannels [padChan]).map IioChannel.name ∧
     List.Sorted chanLE (sortChannels [padChan]) ∧
     (sortChannels [padChan]).Perm [padChan]) :=
  ⟨by decide, claim_C8_output_order [padChan] [] [("pad", 0)] (by decide)⟩

/-- C9: a zero-width channel named timestamp contributes neither gap
nor bytes: the aligned cursor is discarded by the final
`byte_start = byte_end` reset, so it emits `(name, 0)`, occupies the
empty span at the incoming cursor, imposes no span bound, and later
channels proceed exactly as if it were absent. -/
theorem claim_C9_zero_width_timestamp (cur : Nat) (c : IioChannel)
    (rest : List IioChannel) (data : List Nat) (n : Nat)
    (_hname : c.name = "timestamp") (h0 : c.typ_len = 0) :
    decorateFrom cur (c :: rest) data =
      (decorateFrom cur rest data).map (fun l => (c.name, (0 : Rat)) :: l) ∧
    planFrom cur (c :: rest) = (c, cur, cur) :: planFrom cur rest ∧
    fitsFrom cur (c :: rest) n = fitsFrom cur rest n :=
  ⟨decorateFrom_cons_zero cur c rest data h0, planFrom_cons_zero cur c rest h0,
   fitsFrom_cons_zero cur c rest n h0⟩

/-- C9 witness: the zero-width timestamp channel at the unaligned
cursor 2. -/
theorem claim_C9_witness :
    (tsPad.name = "timestamp" ∧ tsPad.typ_len = 0) ∧
    (decorateFrom 2 (tsPad :: []) [] =
      (decorateFrom 2 [] []).map (fun l => (tsPad.name, (0 : Rat)) :: l) ∧
     planFrom 2 (tsPad :: []) = (tsPad, 2, 2) :: planFrom 2 [] ∧
     fitsFrom 2 (tsPad :: []) 5 = fitsFrom 2 [] 5) :=
  ⟨⟨rfl, by decide⟩, claim_C9_zero_width_timestamp 2 tsPad [] [] 5 rfl (by decide)⟩

/-- C10: the channel sort is a stable sort on the index field alone:
the result is a permutation of the input (nothing is dropped), it is
sorted by index, and channels sharing any fixed index keep their
original relative order. -/
theorem claim_C10_stable_index_sort (chans : List IioChannel) (i : Int) :
    (sortChannels chans).Perm chans ∧
    List.Sorted chanLE (sortChannels chans) ∧
    (sortChannels chans).filter (fun c => c.index == i) =
      chans.filter (fun c => c.index == i) :=
  ⟨List.perm_insertionSort chanLE chans, List.sorted_insertionSort chanLE chans,
   filter_sortChannels i chans⟩
